import Mathlib

/-!
Verification of the chat-room backend (`backend/server.py`).

The Python service keeps three Mongo collections (`rooms`, `messages`,
`users`) and exposes five operations over them: `get_rooms`,
`get_messages`, `send_message`, `add_reaction`, `mark_room_as_read`.
This file embeds the data model and those operations shallowly in Lean:

* Mongo documents become structures (`Room`, `Message`, `Reaction`);
  the store becomes a `Store` holding the two collections the core
  operations touch, plus a logical clock.
* `datetime.now(timezone.utc)` is modelled by a monotone logical clock:
  each call reads the clock and advances it, so successive calls yield
  strictly increasing timestamps.
* `uuid.uuid4()` is nondeterministic input, so the fresh message id is
  an explicit argument of `send_message`.
* Mongo's `find_one(filter)` / `update_one(filter, patch)` act on the
  first matching document; they are modelled by `List.find?` and
  `updateFirst`.
* `find().to_list(100)` truncates to 100 documents: `List.take 100`.
* `sort("timestamp", -1).limit(n)` is modelled by a stable descending
  sort followed by `List.take n`.
* raising `HTTPException(404)` aborts before any write; operations that
  can raise it return `Option Store`, with `none` for the 404 response.
-/

namespace NextTalk

/-- Embeds the `Reaction` pydantic model: `emoji`, `user_id`, `username`. -/
structure Reaction where
  emoji : String
  user_id : String
  username : String
deriving DecidableEq, Repr

/-- Embeds the `Message` pydantic model.  Timestamps are logical-clock values. -/
structure Message where
  id : String
  room_id : String
  sender_id : String
  sender_name : String
  content : String
  timestamp : Nat
  reactions : List Reaction
  is_system : Bool
deriving DecidableEq, Repr

/-- Embeds the `Room` pydantic model. -/
structure Room where
  id : String
  name : String
  description : Option String
  participants : List String
  created_at : Nat
  last_activity : Nat
  unread_count : Nat
deriving DecidableEq, Repr

/-- The mutable persistence state: the two collections the core operations
touch, plus the logical clock standing in for `datetime.now`. -/
structure Store where
  rooms : List Room
  messages : List Message
  clock : Nat
deriving DecidableEq, Repr

/-- The hardcoded actor identity the server attributes every write to
(`"current_user"` in `send_message` and `add_reaction`). -/
def currentUserId : String := "current_user"

/-- The hardcoded display name paired with `currentUserId` (`"You"`). -/
def currentUserName : String := "You"

/-- Mongo's `update_one`: rewrite the first element satisfying `p` with `f`,
leave everything else untouched.  If nothing matches, the list is unchanged. -/
def updateFirst (p : α → Bool) (f : α → α) : List α → List α
  | [] => []
  | a :: as => if p a then f a :: as else a :: updateFirst p f as

/-- `find_one({"id": message_id})` on the `messages` collection. -/
def findMessage (s : Store) (message_id : String) : Option Message :=
  s.messages.find? (fun m => m.id == message_id)

/-- `find_one({"id": room_id})` on the `rooms` collection. -/
def findRoom (s : Store) (room_id : String) : Option Room :=
  s.rooms.find? (fun r => r.id == room_id)

/-- Descending-timestamp order used by `sort("timestamp", -1)`. -/
def tsGE (a b : Message) : Prop := b.timestamp ≤ a.timestamp

instance : DecidableRel tsGE := fun a b => Nat.decLe b.timestamp a.timestamp

instance : IsTotal Message tsGE := ⟨fun a b => Nat.le_total b.timestamp a.timestamp⟩

instance : IsTrans Message tsGE := ⟨fun _ _ _ h1 h2 => Nat.le_trans h2 h1⟩

/-- Embeds `get_rooms`: `db.rooms.find().to_list(100)` returns at most the
first 100 stored rooms. -/
def get_rooms (s : Store) : List Room :=
  s.rooms.take 100

/-- The `find({"room_id": room_id})` filter on the `messages` collection. -/
def roomMessages (s : Store) (room_id : String) : List Message :=
  s.messages.filter (fun m => m.room_id == room_id)

/-- Embeds `get_messages`: filter on `room_id`, sort by timestamp descending,
truncate to `limit`, then reverse to present oldest first. -/
def get_messages (s : Store) (room_id : String) (limit : Nat) : List Message :=
  ((List.insertionSort tsGE (roomMessages s room_id)).take limit).reverse

/-- Embeds `send_message`: build the message from the hardcoded actor and the
first `datetime.now` call, `insert_one` it, then `update_one` the room's
`last_activity` with the second `datetime.now` call.  No validation of
`content` or of `room_id` is performed, matching the code. -/
def send_message (s : Store) (room_id content newId : String) : Message × Store :=
  let msg : Message :=
    { id := newId
      room_id := room_id
      sender_id := currentUserId
      sender_name := currentUserName
      content := content
      timestamp := s.clock
      reactions := []
      is_system := false }
  (msg,
    { rooms := updateFirst (fun r => r.id == room_id)
        (fun r => { r with last_activity := s.clock + 1 }) s.rooms
      messages := s.messages ++ [msg]
      clock := s.clock + 2 })

/-- The reaction rewrite `add_reaction` applies to the located message: drop
every entry of the acting user, then append the fresh reaction. -/
def applyReaction (emoji : String) (m : Message) : Message :=
  { m with
    reactions :=
      m.reactions.filter (fun r => !(r.user_id == currentUserId)) ++
        [{ emoji := emoji, user_id := currentUserId, username := currentUserName }] }

/-- Embeds `add_reaction`: locate the message by id (404 → `none` and no
write), otherwise `update_one` its `reactions` with `applyReaction`. -/
def add_reaction (s : Store) (message_id emoji : String) : Option Store :=
  match findMessage s message_id with
  | none => none
  | some _ =>
      some { s with
        messages :=
          updateFirst (fun m => m.id == message_id) (applyReaction emoji) s.messages }

/-- Embeds `mark_room_as_read`: `update_one` setting `unread_count := 0`,
then unconditionally report `success = true` (the code never checks whether
the room exists). -/
def mark_room_as_read (s : Store) (room_id : String) : Store × Bool :=
  ({ s with
      rooms := updateFirst (fun r => r.id == room_id)
        (fun r => { r with unread_count := 0 }) s.rooms },
    true)

/-- A sequence of `add_reaction` calls on one message; any 404 aborts. -/
def reactSeq (s : Store) (message_id : String) : List String → Option Store
  | [] => some s
  | e :: es =>
      match add_reaction s message_id e with
      | none => none
      | some s' => reactSeq s' message_id es

/-- At most one reaction per distinct `user_id` within one message. -/
def reactionsOk (m : Message) : Prop :=
  m.reactions.Pairwise (fun r1 r2 => r1.user_id ≠ r2.user_id)

instance (m : Message) : Decidable (reactionsOk m) := by
  unfold reactionsOk; infer_instance

/-- The store-wide reaction-dedup invariant. -/
def storeOk (s : Store) : Prop :=
  ∀ m ∈ s.messages, reactionsOk m

instance (s : Store) : Decidable (storeOk s) := by
  unfold storeOk; exact List.decidableBAll _ _

/-! ### Helper lemmas about `updateFirst` and `List.find?` -/

theorem updateFirst_of_not_mem (p : α → Bool) (f : α → α) :
    ∀ l : List α, (∀ a ∈ l, p a = false) → updateFirst p f l = l
  | [], _ => rfl
  | a :: as, h => by
      have ha : p a = false := h a (List.mem_cons_self a as)
      simp only [updateFirst, ha, Bool.false_eq_true, if_false]
      rw [updateFirst_of_not_mem p f as (fun x hx => h x (List.mem_cons_of_mem a hx))]

theorem find?_updateFirst (p : α → Bool) (f : α → α)
    (hf : ∀ a, p a = true → p (f a) = true) :
    ∀ l : List α, (updateFirst p f l).find? p = (l.find? p).map f
  | [] => rfl
  | a :: as => by
      by_cases ha : p a = true
      · simp only [updateFirst, ha, if_true, List.find?_cons, hf a ha]
        rfl
      · have ha' : p a = false := Bool.eq_false_iff.mpr ha
        simp only [updateFirst, ha', Bool.false_eq_true, if_false, List.find?_cons]
        rw [find?_updateFirst p f hf as]

theorem mem_updateFirst (p : α → Bool) (f : α → α) :
    ∀ l : List α, ∀ b ∈ updateFirst p f l, b ∈ l ∨ ∃ a ∈ l, b = f a
  | a :: as, b, hb => by
      by_cases ha : p a = true
      · simp only [updateFirst, ha, if_true] at hb
        rcases List.mem_cons.mp hb with h | h
        · exact Or.inr ⟨a, List.mem_cons_self a as, h⟩
        · exact Or.inl (List.mem_cons_of_mem a h)
      · have ha' : p a = false := Bool.eq_false_iff.mpr ha
        simp only [updateFirst, ha', Bool.false_eq_true, if_false] at hb
        rcases List.mem_cons.mp hb with h | h
        · exact Or.inl (h ▸ List.mem_cons_self a as)
        · rcases mem_updateFirst p f as b h with h' | ⟨c, hc, hbc⟩
          · exact Or.inl (List.mem_cons_of_mem a h')
          · exact Or.inr ⟨c, List.mem_cons_of_mem a hc, hbc⟩

theorem updateFirst_split (p : α → Bool) (f : α → α) :
    ∀ l : List α, ∀ a, l.find? p = some a →
      ∃ l1 l2, l = l1 ++ a :: l2 ∧ (∀ x ∈ l1, p x = false) ∧
        updateFirst p f l = l1 ++ f a :: l2
  | b :: bs, a, h => by
      by_cases hb : p b = true
      · rw [List.find?_cons_of_pos _ hb] at h
        obtain rfl : b = a := Option.some.inj h
        exact ⟨[], bs, rfl, fun x hx => absurd hx (List.not_mem_nil x),
          by simp [updateFirst, hb]⟩
      · have hb' : p b = false := Bool.eq_false_iff.mpr hb
        rw [List.find?_cons_of_neg _ hb] at h
        obtain ⟨l1, l2, hsplit, hl1, hupd⟩ := updateFirst_split p f bs a h
        refine ⟨b :: l1, l2, by rw [hsplit]; rfl, ?_, ?_⟩
        · intro x hx
          rcases List.mem_cons.mp hx with rfl | hx'
          · exact hb'
          · exact hl1 x hx'
        · simp only [updateFirst, hb', Bool.false_eq_true, if_false, hupd]; rfl

/-! ### Concrete stores for witnesses and counterexamples -/

/-- A concrete room mirroring the seeded `room1`. -/
def demoRoom : Room :=
  { id := "room1", name := "General Discussion", description := some "Main team chat",
    participants := ["user1", "user2", "current_user"], created_at := 0,
    last_activity := 1, unread_count := 3 }

/-- A concrete message mirroring the seeded `msg1`, with one reaction by `user2`. -/
def demoMsg : Message :=
  { id := "msg1", room_id := "room1", sender_id := "user1",
    sender_name := "Alice Johnson", content := "Hey everyone!", timestamp := 1,
    reactions := [{ emoji := "👍", user_id := "user2", username := "Bob Smith" }],
    is_system := false }

/-- A small concrete store holding `demoRoom` and `demoMsg`. -/
def demoStore : Store :=
  { rooms := [demoRoom], messages := [demoMsg], clock := 2 }

/-- A room with id `toString i`, used to build a store with many rooms. -/
def mkRoom (i : Nat) : Room :=
  { id := toString i, name := "r", description := none, participants := [],
    created_at := 0, last_activity := 0, unread_count := 0 }

/-- A store with 101 rooms, exceeding the `to_list(100)` truncation bound. -/
def bigStore : Store :=
  { rooms := (List.range 101).map mkRoom, messages := [], clock := 0 }

/-! ### Claim theorems -/

/-- C4 counterexample: sending with empty content into the concrete store does
not fail — it persists a new message whose content is empty, refuting
"fails with ValidationError and does not persist any message". -/
theorem send_empty_content_persists :
    (send_message demoStore "room1" "" "m9").2.messages.length =
        demoStore.messages.length + 1 ∧
      (send_message demoStore "room1" "" "m9").1.content = "" :=
  ⟨rfl, rfl⟩

/-- C4 amended: `send_message` performs no content validation; an
empty-content send succeeds and appends a message with empty content. -/
theorem send_empty_content_succeeds (s : Store) (rid nid : String) :
    (send_message s rid "" nid).2.messages =
        s.messages ++ [(send_message s rid "" nid).1] ∧
      (send_message s rid "" nid).1.content = "" :=
  ⟨rfl, rfl⟩

/-- C5 counterexample: sending into a room id absent from the concrete store
does not fail — the message is persisted anyway, refuting "fails with
NotFound and does not persist any message". -/
theorem send_unknown_room_persists :
    (∀ r ∈ demoStore.rooms, r.id ≠ "ghost") ∧
      (send_message demoStore "ghost" "hi" "m9").2.messages.length =
        demoStore.messages.length + 1 :=
  ⟨by decide, rfl⟩

/-- C5 amended: `send_message` does not check room existence; a send into a
nonexistent room succeeds, persists the message, and leaves the rooms
collection unchanged (the `last_activity` update matches no document). -/
theorem send_unknown_room_succeeds (s : Store) (rid c nid : String)
    (h : ∀ r ∈ s.rooms, (r.id == rid) = false) :
    (send_message s rid c nid).2.messages =
        s.messages ++ [(send_message s rid c nid).1] ∧
      (send_message s rid c nid).2.rooms = s.rooms := by
  refine ⟨rfl, ?_⟩
  simp only [send_message]
  exact updateFirst_of_not_mem _ _ s.rooms h

/-- Witness for `send_unknown_room_succeeds` at the concrete store. -/
theorem send_unknown_room_succeeds_witness :
    (∀ r ∈ demoStore.rooms, (r.id == "ghost") = false) ∧
      ((send_message demoStore "ghost" "hi" "m9").2.messages =
          demoStore.messages ++ [(send_message demoStore "ghost" "hi" "m9").1] ∧
        (send_message demoStore "ghost" "hi" "m9").2.rooms = demoStore.rooms) :=
  ⟨by decide, send_unknown_room_succeeds demoStore "ghost" "hi" "m9" (by decide)⟩

/-- C6 counterexample: marking an unknown room as read still reports
success and leaves the store unchanged, refuting "fails with NotFound". -/
theorem mark_read_unknown_room_reports_success :
    (∀ r ∈ demoStore.rooms, r.id ≠ "ghost") ∧
      (mark_room_as_read demoStore "ghost").2 = true ∧
      (mark_room_as_read demoStore "ghost").1 = demoStore :=
  ⟨by decide, rfl, by decide⟩

/-- C6 amended: `mark_room_as_read` never returns NotFound; on a room id
matching no stored room it is a no-op that still reports success. -/
theorem mark_read_unknown_room (s : Store) (rid : String)
    (h : ∀ r ∈ s.rooms, (r.id == rid) = false) :
    mark_room_as_read s rid = (s, true) := by
  unfold mark_room_as_read
  rw [updateFirst_of_not_mem _ _ s.rooms h]

/-- Witness for `mark_read_unknown_room` at the concrete store. -/
theorem mark_read_unknown_room_witness :
    (∀ r ∈ demoStore.rooms, (r.id == "ghost") = false) ∧
      mark_room_as_read demoStore "ghost" = (demoStore, true) :=
  ⟨by decide, mark_read_unknown_room demoStore "ghost" (by decide)⟩

/-- C7: reacting to an unknown message id returns NotFound (`none`) and the
store visible afterwards is exactly the old store — nothing is written. -/
theorem add_reaction_unknown_message (s : Store) (mid em : String)
    (h : findMessage s mid = none) :
    add_reaction s mid em = none ∧ (add_reaction s mid em).getD s = s := by
  unfold add_reaction
  rw [h]
  exact ⟨rfl, rfl⟩

/-- Witness for `add_reaction_unknown_message` at the concrete store. -/
theorem add_reaction_unknown_message_witness :
    findMessage demoStore "ghost" = none ∧
      (add_reaction demoStore "ghost" "🎉" = none ∧
        (add_reaction demoStore "ghost" "🎉").getD demoStore = demoStore) :=
  ⟨by decide, add_reaction_unknown_message demoStore "ghost" "🎉" (by decide)⟩

/-- C8: a successful send into an existing room updates that room's
`last_activity` to a value at least the new message's timestamp. -/
theorem send_message_touches_last_activity (s : Store) (rid c nid : String)
    (r : Room) (hr : findRoom s rid = some r) :
    ∃ r', findRoom (send_message s rid c nid).2 rid = some r' ∧
      (send_message s rid c nid).1.timestamp ≤ r'.last_activity := by
  have hfind := find?_updateFirst (fun a : Room => a.id == rid)
    (fun a => { a with last_activity := s.clock + 1 })
    (fun a ha => ha) s.rooms
  refine ⟨{ r with last_activity := s.clock + 1 }, ?_, ?_⟩
  · show ((updateFirst (fun a : Room => a.id == rid)
        (fun a => { a with last_activity := s.clock + 1 }) s.rooms).find?
          (fun a => a.id == rid)) = _
    rw [hfind]
    unfold findRoom at hr
    rw [hr]
    rfl
  · exact Nat.le_succ s.clock

/-- Witness for `send_message_touches_last_activity` at the concrete store. -/
theorem send_message_touches_last_activity_witness :
    findRoom demoStore "room1" = some demoRoom ∧
      ∃ r', findRoom (send_message demoStore "room1" "hi" "m9").2 "room1" = some r' ∧
        (send_message demoStore "room1" "hi" "m9").1.timestamp ≤ r'.last_activity :=
  ⟨by decide,
    send_message_touches_last_activity demoStore "room1" "hi" "m9" demoRoom (by decide)⟩

/-- C9 counterexample: with 101 stored rooms, `get_rooms` omits the 101st
room, refuting "every stored room appears in the result, with no bound". -/
theorem get_rooms_misses_room :
    mkRoom 100 ∈ bigStore.rooms ∧ mkRoom 100 ∉ get_rooms bigStore := by
  constructor
  · decide
  · decide

/-- C9 amended: `get_rooms` returns the stored rooms truncated to the first
100; it returns every stored room exactly when at most 100 rooms exist. -/
theorem get_rooms_returns_first_100 (s : Store) (h : s.rooms.length ≤ 100) :
    get_rooms s = s.rooms ∧ (get_rooms s).length ≤ 100 := by
  constructor
  · exact List.take_of_length_le h
  · unfold get_rooms
    rw [List.length_take]
    exact Nat.min_le_left _ _

/-- Witness for `get_rooms_returns_first_100` at the concrete store. -/
theorem get_rooms_returns_first_100_witness :
    demoStore.rooms.length ≤ 100 ∧
      (get_rooms demoStore = demoStore.rooms ∧ (get_rooms demoStore).length ≤ 100) :=
  ⟨by decide, get_rooms_returns_first_100 demoStore (by decide)⟩

/-! ### Lemmas about a single successful `add_reaction` -/

theorem add_reaction_found (s : Store) (mid em : String) (m : Message)
    (h : findMessage s mid = some m) :
    add_reaction s mid em =
      some { s with
        messages :=
          updateFirst (fun x => x.id == mid) (applyReaction em) s.messages } := by
  unfold add_reaction
  rw [h]

theorem add_reaction_step (s : Store) (mid em : String) (m : Message)
    (h : findMessage s mid = some m) :
    ∃ s', add_reaction s mid em = some s' ∧
      findMessage s' mid = some (applyReaction em m) := by
  refine ⟨_, add_reaction_found s mid em m h, ?_⟩
  show (updateFirst (fun x : Message => x.id == mid) (applyReaction em)
      s.messages).find? (fun x => x.id == mid) = _
  rw [find?_updateFirst (fun x : Message => x.id == mid) (applyReaction em)
    (fun a ha => ha) s.messages]
  unfold findMessage at h
  rw [h]
  rfl

theorem applyReaction_countP (em : String) (m : Message) :
    (applyReaction em m).reactions.countP (fun r => r.user_id == currentUserId) = 1 := by
  unfold applyReaction
  rw [List.countP_append]
  have h0 : (m.reactions.filter
      (fun r => !(r.user_id == currentUserId))).countP
        (fun r => r.user_id == currentUserId) = 0 := by
    rw [List.countP_eq_zero]
    intro a ha
    have := List.of_mem_filter ha
    simpa using this
  rw [h0]
  rfl

theorem applyReaction_getLast (em : String) (m : Message) :
    (applyReaction em m).reactions.getLast? =
      some { emoji := em, user_id := currentUserId, username := currentUserName } :=
  List.getLast?_concat _

/-- C1: after any nonempty sequence of reacts by the acting user on an
existing message, that message holds exactly one reaction of the acting
user, carrying the last emoji supplied, as the final list entry. -/
theorem react_seq_last_writer_wins (s : Store) (mid : String)
    (es : List String) (e : String) (h : (findMessage s mid).isSome = true) :
    ∃ s' m, reactSeq s mid (es ++ [e]) = some s' ∧ findMessage s' mid = some m ∧
      m.reactions.countP (fun r => r.user_id == currentUserId) = 1 ∧
      m.reactions.getLast? =
        some { emoji := e, user_id := currentUserId, username := currentUserName } := by
  induction es generalizing s with
  | nil =>
      obtain ⟨m, hm⟩ := Option.isSome_iff_exists.mp h
      obtain ⟨s', hstep, hfind⟩ := add_reaction_step s mid e m hm
      refine ⟨s', applyReaction e m, ?_, hfind,
        applyReaction_countP e m, applyReaction_getLast e m⟩
      simp only [List.nil_append, reactSeq, hstep]
  | cons e' es ih =>
      obtain ⟨m, hm⟩ := Option.isSome_iff_exists.mp h
      obtain ⟨s1, hstep, hfind1⟩ := add_reaction_step s mid e' m hm
      have h1 : (findMessage s1 mid).isSome = true := by rw [hfind1]; rfl
      obtain ⟨s', m', hseq, hfind', hcount, hlast⟩ := ih s1 h1
      refine ⟨s', m', ?_, hfind', hcount, hlast⟩
      simp only [List.cons_append, reactSeq, hstep]
      exact hseq

/-- Witness for `react_seq_last_writer_wins` at the concrete store. -/
theorem react_seq_last_writer_wins_witness :
    (findMessage demoStore "msg1").isSome = true ∧
      ∃ s' m, reactSeq demoStore "msg1" (["🔥"] ++ ["🎉"]) = some s' ∧
        findMessage s' "msg1" = some m ∧
        m.reactions.countP (fun r => r.user_id == currentUserId) = 1 ∧
        m.reactions.getLast? =
          some { emoji := "🎉", user_id := currentUserId, username := currentUserName } :=
  ⟨by decide, react_seq_last_writer_wins demoStore "msg1" ["🔥"] "🎉" (by decide)⟩

/-! ### The reaction-dedup invariant -/

theorem reactionsOk_applyReaction (em : String) (m : Message)
    (h : reactionsOk m) : reactionsOk (applyReaction em m) := by
  unfold reactionsOk applyReaction at *
  rw [List.pairwise_append]
  refine ⟨h.sublist (List.filter_sublist m.reactions), List.pairwise_singleton _ _, ?_⟩
  intro a ha b hb
  rcases List.mem_singleton.mp hb with rfl
  have hpa := List.of_mem_filter ha
  intro hcontra
  have hc2 : a.user_id = currentUserId := hcontra
  simp [hc2] at hpa

/-- C3: the at-most-one-reaction-per-user invariant is preserved by every
operation: `send_message` (new messages start with no reactions),
`add_reaction` (replace-then-append keeps user ids distinct), and
`mark_room_as_read` (messages untouched); the reads `get_messages` and
`get_rooms` do not write the store, and every message `get_messages`
returns satisfies the invariant. -/
theorem store_invariant_preserved (s : Store) (h : storeOk s)
    (rid c nid mid em : String) (limit : Nat) :
    storeOk (send_message s rid c nid).2 ∧
      (∀ s', add_reaction s mid em = some s' → storeOk s') ∧
      storeOk (mark_room_as_read s rid).1 ∧
      (∀ m ∈ get_messages s rid limit, reactionsOk m) := by
  refine ⟨?_, ?_, ?_, ?_⟩
  · intro m hm
    rcases List.mem_append.mp hm with hm' | hm'
    · exact h m hm'
    · rcases List.mem_singleton.mp hm' with rfl
      exact List.Pairwise.nil
  · intro s' hs'
    unfold add_reaction at hs'
    cases hfm : findMessage s mid with
    | none => rw [hfm] at hs'; cases hs'
    | some m =>
        rw [hfm] at hs'
        cases hs'
        intro x hx
        rcases mem_updateFirst _ _ s.messages x hx with hx' | ⟨a, ha, rfl⟩
        · exact h x hx'
        · exact reactionsOk_applyReaction em a (h a ha)
  · exact h
  · intro m hm
    unfold get_messages at hm
    rw [List.mem_reverse] at hm
    have h1 := (List.take_sublist _ _).subset hm
    rw [List.mem_insertionSort] at h1
    exact h m (List.mem_of_mem_filter h1)

/-- Witness for `store_invariant_preserved` at the concrete store. -/
theorem store_invariant_preserved_witness :
    storeOk demoStore ∧
      (storeOk (send_message demoStore "room1" "hi" "m9").2 ∧
        (∀ s', add_reaction demoStore "msg1" "🎉" = some s' → storeOk s') ∧
        storeOk (mark_room_as_read demoStore "room1").1 ∧
        (∀ m ∈ get_messages demoStore "room1" 50, reactionsOk m)) :=
  ⟨by decide,
    store_invariant_preserved demoStore (by decide) "room1" "hi" "m9" "msg1" "🎉" 50⟩

/-! ### Frame effect of a successful `add_reaction` -/

theorem filter_applyReaction (em : String) (m : Message) :
    (applyReaction em m).reactions.filter (fun r => !(r.user_id == currentUserId)) =
      m.reactions.filter (fun r => !(r.user_id == currentUserId)) := by
  unfold applyReaction
  rw [List.filter_append, List.filter_filter]
  simp [Bool.and_self]

/-- C10: a successful react rewrites exactly one message — the first one
carrying the target id — leaving its other-user reactions unchanged in value
and order, every other field of that message unchanged, every other message
untouched in place, and the rooms collection and clock unchanged. -/
theorem add_reaction_frame (s : Store) (mid em : String) (s' : Store)
    (h : add_reaction s mid em = some s') :
    s'.rooms = s.rooms ∧ s'.clock = s.clock ∧
      ∃ pre m post,
        s.messages = pre ++ m :: post ∧
        (∀ x ∈ pre, (x.id == mid) = false) ∧
        (m.id == mid) = true ∧
        s'.messages = pre ++ applyReaction em m :: post ∧
        (applyReaction em m).id = m.id ∧
        (applyReaction em m).room_id = m.room_id ∧
        (applyReaction em m).sender_id = m.sender_id ∧
        (applyReaction em m).sender_name = m.sender_name ∧
        (applyReaction em m).content = m.content ∧
        (applyReaction em m).timestamp = m.timestamp ∧
        (applyReaction em m).is_system = m.is_system ∧
        (applyReaction em m).reactions.filter (fun r => !(r.user_id == currentUserId)) =
          m.reactions.filter (fun r => !(r.user_id == currentUserId)) := by
  unfold add_reaction at h
  cases hfm : findMessage s mid with
  | none => rw [hfm] at h; cases h
  | some m =>
      rw [hfm] at h
      cases h
      refine ⟨rfl, rfl, ?_⟩
      obtain ⟨l1, l2, hsplit, hl1, hupd⟩ :=
        updateFirst_split (fun x : Message => x.id == mid) (applyReaction em)
          s.messages m hfm
      have hpm :=
        List.find?_some
          (show List.find? (fun x : Message => x.id == mid) s.messages = some m from hfm)
      exact ⟨l1, m, l2, hsplit, hl1, hpm, hupd, rfl, rfl, rfl, rfl,
        rfl, rfl, rfl, filter_applyReaction em m⟩

/-- Witness for `add_reaction_frame` at the concrete store. -/
theorem add_reaction_frame_witness :
    add_reaction demoStore "msg1" "🎉" =
        some ((add_reaction demoStore "msg1" "🎉").getD demoStore) ∧
      (((add_reaction demoStore "msg1" "🎉").getD demoStore).rooms = demoStore.rooms ∧
        ((add_reaction demoStore "msg1" "🎉").getD demoStore).clock = demoStore.clock ∧
        ∃ pre m post,
          demoStore.messages = pre ++ m :: post ∧
          (∀ x ∈ pre, (x.id == "msg1") = false) ∧
          (m.id == "msg1") = true ∧
          ((add_reaction demoStore "msg1" "🎉").getD demoStore).messages =
            pre ++ applyReaction "🎉" m :: post ∧
          (applyReaction "🎉" m).id = m.id ∧
          (applyReaction "🎉" m).room_id = m.room_id ∧
          (applyReaction "🎉" m).sender_id = m.sender_id ∧
          (applyReaction "🎉" m).sender_name = m.sender_name ∧
          (applyReaction "🎉" m).content = m.content ∧
          (applyReaction "🎉" m).timestamp = m.timestamp ∧
          (applyReaction "🎉" m).is_system = m.is_system ∧
          (applyReaction "🎉" m).reactions.filter
              (fun r => !(r.user_id == currentUserId)) =
            m.reactions.filter (fun r => !(r.user_id == currentUserId))) :=
  ⟨by decide,
    add_reaction_frame demoStore "msg1" "🎉"
      ((add_reaction demoStore "msg1" "🎉").getD demoStore) (by decide)⟩

/-! ### `get_messages` returns the last `limit` messages, oldest first -/

/-- C2: for a positive `limit`, `get_messages` returns at most `limit`
messages, sorted by non-decreasing timestamp, drawn from the room's stored
messages, as many as available up to `limit`, and every room message left
out is no newer than every message returned (the selection is the most
recent ones). -/
theorem get_messages_spec (s : Store) (rid : String) (limit : Nat)
    (_hpos : 0 < limit) :
    (get_messages s rid limit).length ≤ limit ∧
      (get_messages s rid limit).Pairwise (fun a b => a.timestamp ≤ b.timestamp) ∧
      (∀ m ∈ get_messages s rid limit, m ∈ s.messages ∧ m.room_id = rid) ∧
      (get_messages s rid limit).length = min limit (roomMessages s rid).length ∧
      (∀ m ∈ roomMessages s rid, m ∉ get_messages s rid limit →
        ∀ m2 ∈ get_messages s rid limit, m.timestamp ≤ m2.timestamp) := by
  have hsorted : (List.insertionSort tsGE (roomMessages s rid)).Pairwise tsGE :=
    List.sorted_insertionSort tsGE (roomMessages s rid)
  refine ⟨?_, ?_, ?_, ?_, ?_⟩
  · unfold get_messages
    rw [List.length_reverse, List.length_take]
    exact min_le_left _ _
  · unfold get_messages
    rw [List.pairwise_reverse]
    exact hsorted.sublist (List.take_sublist _ _)
  · intro m hm
    unfold get_messages at hm
    rw [List.mem_reverse] at hm
    have h1 := (List.take_sublist _ _).subset hm
    rw [List.mem_insertionSort] at h1
    have h2 := List.mem_filter.mp h1
    exact ⟨h2.1, by simpa using h2.2⟩
  · unfold get_messages
    rw [List.length_reverse, List.length_take,
      (List.perm_insertionSort tsGE (roomMessages s rid)).length_eq]
  · intro m hm hnot m2 hm2
    unfold get_messages at hnot hm2
    rw [List.mem_reverse] at hm2
    have hmL : m ∈ List.insertionSort tsGE (roomMessages s rid) :=
      (List.mem_insertionSort tsGE).mpr hm
    have hmT : m ∉ (List.insertionSort tsGE (roomMessages s rid)).take limit :=
      fun hc => hnot (List.mem_reverse.mpr hc)
    have hTD := List.take_append_drop limit (List.insertionSort tsGE (roomMessages s rid))
    rw [← hTD] at hmL hsorted
    have hmD : m ∈ (List.insertionSort tsGE (roomMessages s rid)).drop limit := by
      rcases List.mem_append.mp hmL with hin | hin
      · exact absurd hin hmT
      · exact hin
    exact (List.pairwise_append.mp hsorted).2.2 m2 hm2 m hmD

/-- Witness for `get_messages_spec` at the concrete store. -/
theorem get_messages_spec_witness :
    0 < 50 ∧
      ((get_messages demoStore "room1" 50).length ≤ 50 ∧
        (get_messages demoStore "room1" 50).Pairwise
          (fun a b => a.timestamp ≤ b.timestamp) ∧
        (∀ m ∈ get_messages demoStore "room1" 50,
          m ∈ demoStore.messages ∧ m.room_id = "room1") ∧
        (get_messages demoStore "room1" 50).length =
          min 50 (roomMessages demoStore "room1").length ∧
        (∀ m ∈ roomMessages demoStore "room1",
          m ∉ get_messages demoStore "room1" 50 →
            ∀ m2 ∈ get_messages demoStore "room1" 50,
              m.timestamp ≤ m2.timestamp)) :=
  ⟨by decide, get_messages_spec demoStore "room1" 50 (by decide)⟩

end NextTalk
